import Mathlib

/-!
Verification of the arrangement core in src/libslic3r/Arrange.cpp.

The development shallowly embeds the facade (arrange), the AutoArranger
class (before_packing, preload, is_colliding, objfunc), the _arrange
prologue (exclude filtering, preload, warm start), the bedShape helper
and the stride computation. Scaled integer coordinates are Int, double
arithmetic is ℚ, and the floating square root used by pl::distance is
abstracted by a function parameter sqrtA, as is the external convex hull
circumference used only by the LAST_BIG_ITEM branch.
-/

namespace Arrangement

/-- A point with integer (scaled) coordinates, mirroring ClipperLib::IntPoint. -/
structure IntPoint where
  x : Int
  y : Int
  deriving DecidableEq

/-- An axis-aligned box given by its two corners, mirroring the libnest2d _Box. -/
structure IntBox where
  minC : IntPoint
  maxC : IntPoint
  deriving DecidableEq

/-- Box width, maxCorner x minus minCorner x. -/
def IntBox.width (b : IntBox) : Int := b.maxC.x - b.minC.x

/-- Box height, maxCorner y minus minCorner y. -/
def IntBox.height (b : IntBox) : Int := b.maxC.y - b.minC.y

/-- Box center with C truncating integer division, as computed on cInt coordinates. -/
def IntBox.center (b : IntBox) : IntPoint :=
  ⟨(b.minC.x + b.maxC.x).tdiv 2, (b.minC.y + b.maxC.y).tdiv 2⟩

/-- Box area as the double width·height of the C++ code, embedded in ℚ. -/
def IntBox.areaQ (b : IntBox) : ℚ := (b.width : ℚ) * (b.height : ℚ)

/-- sl::boundingBox of two boxes: the smallest box containing both. -/
def boxUnion (a b : IntBox) : IntBox :=
  ⟨⟨min a.minC.x b.minC.x, min a.minC.y b.minC.y⟩,
   ⟨max a.maxC.x b.maxC.x, max a.maxC.y b.maxC.y⟩⟩

/-- Closed-box overlap test, the bgi::intersects predicate of the boost rtree. -/
def boxIntersects (a b : IntBox) : Bool :=
  a.minC.x ≤ b.maxC.x && b.minC.x ≤ a.maxC.x &&
  a.minC.y ≤ b.maxC.y && b.minC.y ≤ a.maxC.y

/-- pl::distance between two integer points, computed in double arithmetic as
sqrt(dx² + dy²); sqrtA abstracts the floating square root. -/
def distance_to (sqrtA : ℚ → ℚ) (p q : IntPoint) : ℚ :=
  sqrtA (((q.x - p.x : Int) : ℚ) ^ 2 + ((q.y - p.y : Int) : ℚ) ^ 2)

/-- std::min_element over a list of rationals (0 for an empty list). -/
def minList : List ℚ → ℚ
  | [] => 0
  | a :: r => r.foldl min a

/-! ### C1: clearance halving in the facade (Arrange.cpp 631-634, 677-682) -/

/-- Clearance computation of the facade (Arrange.cpp 631-633): md is
min_obj_distance − SCALED_EPSILON, halved with integer ceiling using the C
truncating division and remainder. -/
def md_of (minObjDistance scaledEpsilon : Int) : Int :=
  let md := minObjDistance - scaledEpsilon
  if md.tmod 2 ≠ 0 then md.tdiv 2 + 1 else md.tdiv 2

/-- The distance value actually given to _arrange, and through it to the
AutoArranger and the Nester, by the shipped branch of the facade switch
(Arrange.cpp 680): the full, unhalved min_obj_distance. The halved md is not
mentioned by any live call. -/
def arrange_distance_passed (minObjDistance scaledEpsilon : Int) : Int :=
  minObjDistance

/-- C1 counterexample: with min_obj_distance = 1000 and SCALED_EPSILON = 100 the
halved clearance is 450, but the shipped facade hands 1000, not 450, to the
arranger, so the halved value is not the inflation distance given to it. -/
theorem c1_unhalved_distance_cex :
    md_of 1000 100 = 450 ∧ arrange_distance_passed 1000 100 = 1000 ∧
    ¬ arrange_distance_passed 1000 100 = md_of 1000 100 := by
  refine ⟨by decide, by decide, by decide⟩

/-- C1 amended: the facade computes md as the integer ceiling of
(min_obj_distance − SCALED_EPSILON)/2 (stated for a nonnegative difference),
but the value it passes to the arranger is the full min_obj_distance; md is
unused by the shipped Infinite branch. -/
theorem c1_md_ceiling_and_distance (m e : Int) (h : 0 ≤ m - e) :
    md_of m e = (m - e + 1).tdiv 2 ∧ arrange_distance_passed m e = m := by
  refine ⟨?_, rfl⟩
  show (if (m - e).tmod 2 ≠ 0 then (m - e).tdiv 2 + 1 else (m - e).tdiv 2)
      = (m - e + 1).tdiv 2
  obtain ⟨k, hk⟩ := Int.eq_ofNat_of_zero_le h
  rw [hk]
  have h1 : ((k : Int)).tmod 2 = ((k % 2 : Nat) : Int) := by
    exact_mod_cast Int.ofNat_tmod k 2
  have h2 : ((k : Int)).tdiv 2 = ((k / 2 : Nat) : Int) := by
    exact_mod_cast Int.ofNat_tdiv k 2
  have h3 : ((k : Int) + 1).tdiv 2 = (((k + 1) / 2 : Nat) : Int) := by
    have hc : ((k : Int) + 1) = ((k + 1 : Nat) : Int) := by push_cast; ring
    rw [hc]; exact_mod_cast Int.ofNat_tdiv (k + 1) 2
  rw [h1, h2, h3]
  by_cases hpar : k % 2 = 0
  · have hn : ¬ ((k % 2 : Nat) : Int) ≠ 0 := by omega
    rw [if_neg hn]; omega
  · have hn : ((k % 2 : Nat) : Int) ≠ 0 := by omega
    rw [if_pos hn]; omega

/-- C1 witness for the amended statement at min_obj_distance 1001, ε 100. -/
theorem c1_md_ceiling_and_distance_wit :
    0 ≤ (1001 : Int) - 100 ∧
    (md_of 1001 100 = ((1001 : Int) - 100 + 1).tdiv 2 ∧
     arrange_distance_passed 1001 100 = 1001) :=
  ⟨by decide, c1_md_ceiling_and_distance 1001 100 (by decide)⟩

/-! ### C2: facade return value (Arrange.cpp 581, 685-687) -/

/-- A run of the facade as visible at its return statements: whether the stop
predicate fires at the final check, how many movable parts were given, and how
many the nesting engine placed. -/
structure FacadeRun where
  stopAtEnd : Bool
  inputCount : Nat
  placedCount : Nat
  deriving DecidableEq

/-- The shipped facade return value (Arrange.cpp 581, 685-687): ret is
initialized to true and never reassigned; the PackGroup produced by _arrange is
discarded, and the only false path is the stop predicate check at the end. -/
def arrange_ret (r : FacadeRun) : Bool :=
  let ret := true
  if r.stopAtEnd then false else ret

/-- A run left a part unplaceable when the engine placed fewer parts than it was
given. -/
def hasUnplaced (r : FacadeRun) : Bool :=
  r.placedCount < r.inputCount

/-- C2 counterexample: a run with one movable part, zero parts placed and no
stop: there is an unplaceable part, yet the facade returns true, not false. -/
theorem c2_unplaceable_returns_true_cex :
    hasUnplaced ⟨false, 1, 0⟩ = true ∧ arrange_ret ⟨false, 1, 0⟩ = true := by
  refine ⟨by decide, by decide⟩

/-- C2 amended: the facade returns false exactly when the stop predicate fires
at the end; the placement outcome — in particular the presence of unplaceable
parts — does not influence the return value (placement remains best effort). -/
theorem c2_ret_ignores_placement (s : Bool) (i p q : Nat) :
    arrange_ret ⟨s, i, p⟩ = !s ∧ arrange_ret ⟨s, i, p⟩ = arrange_ret ⟨s, i, q⟩ := by
  cases s <;> exact ⟨rfl, rfl⟩

/-! ### C3, C4: the bed hint switch and the bin stride (Arrange.cpp 567-570, 613-683) -/

/-- The tag of a bed shape hint (BedShapeType). -/
inductive BedShapeType where
  | box
  | circle
  | irregular
  | infinite
  | unknown
  deriving DecidableEq

/-- A bed shape hint as the shipped facade consumes it: the tag together with
the box member of the shape union — the only member the shipped switch reads,
through bedhint.shape.box.center(). -/
structure BedHint where
  type : BedShapeType
  shapeBox : IntBox
  deriving DecidableEq

/-- The bin a facade switch branch would construct. -/
inductive BinChoice where
  | boxBin (b : IntBox)
  | circleBin (center : IntPoint) (radius : Int)
  | irregularBin (contour : List IntPoint)
  | infiniteBin (center : IntPoint)
  deriving DecidableEq

/-- Whether a bin choice is the infinite one. -/
def BinChoice.isInfiniteBin : BinChoice → Bool
  | .infiniteBin _ => true
  | _ => false

/-- The facade switch over the bed hint (Arrange.cpp 637-683): every labelled
case is commented out, so every tag falls into default, which builds an
infinite bin centered at the center of the box member of the shape union. -/
def facade_bin (h : BedHint) : BinChoice :=
  match h.type with
  | _ => .infiniteBin h.shapeBox.center

/-- C3: for every bed hint — box, circle, irregular, infinite or unknown — the
shipped facade constructs the infinite bin centered at the hint's box member
center; the box, circle and irregular constructions are never executed. -/
theorem c3_every_hint_infinite_bin (h : BedHint) :
    facade_bin h = .infiniteBin h.shapeBox.center ∧
    (facade_bin h).isInfiniteBin = true := by
  cases h with
  | mk t b => cases t <;> exact ⟨rfl, rfl⟩

/-- stride_padding (Arrange.cpp 567-570): w + w/5 in C integer division. -/
def stride_padding (w : Int) : Int := w + w.tdiv 5

/-- The facade's binwidth variable as it stands when the apply callbacks run:
initialized to 0 (Arrange.cpp 586); every assignment to it sits inside one of
the commented-out switch branches, so it remains 0 for every bed hint. -/
def facade_binwidth (h : BedHint) : Int := 0

/-- The scaled translation and rotation handed to apply_arrange_result. -/
structure ApplyEvent where
  x : Int
  y : Int
  rot : ℚ
  deriving DecidableEq

/-- The apply callback registered for every movable handle (Arrange.cpp
613-626): it reads the item's final translation, adds binidx · stride_padding
binwidth to its x coordinate and passes the pose on (the final unscaling to
millimeters divides both coordinates by 10⁶ and is left out here). -/
def movable_apply (binwidth : Int) : IntPoint → ℚ → Nat → ApplyEvent :=
  fun tr rot binidx => ⟨tr.x + (binidx : Int) * stride_padding binwidth, tr.y, rot⟩

/-- The claim's stride for a Box bed hint, following its words: the bin built
from a Box hint is the bed's bounding box, so the claimed stride is
stride_padding of that box's width. -/
def claimed_stride (h : BedHint) : Int := stride_padding h.shapeBox.width

/-- C4 counterexample: for a Box bed hint 2·10⁸ scaled units (200 mm) wide, the
claim's stride is 240000000, but the shipped facade computes the callback with
binwidth = 0, so a part committed to bin 1 with zero translation receives the
X value 0, not 240000000: bins are not laid out at multiples of a width-based
stride. -/
theorem c4_stride_zero_cex :
    claimed_stride ⟨.box, ⟨⟨0, 0⟩, ⟨200000000, 200000000⟩⟩⟩ = 240000000 ∧
    (movable_apply (facade_binwidth ⟨.box, ⟨⟨0, 0⟩, ⟨200000000, 200000000⟩⟩⟩)
        ⟨0, 0⟩ 0 1).x = 0 ∧
    ¬ (0 : Int) = 240000000 := by
  refine ⟨by decide, by decide, by decide⟩

/-- C4 amended: the callback X value is offs.x + binidx · stride_padding
binwidth with stride_padding w = w + w/5, but in the shipped facade binwidth is
0 for every hint, so the stride is 0 and every bin index yields the same X. -/
theorem c4_callback_stride (h : BedHint) (w : Int) (tr : IntPoint) (rot : ℚ)
    (binidx : Nat) :
    (movable_apply (facade_binwidth h) tr rot binidx).x = tr.x ∧
    (movable_apply w tr rot binidx).x = tr.x + (binidx : Int) * (w + w.tdiv 5) := by
  refine ⟨?_, rfl⟩
  show tr.x + (binidx : Int) * stride_padding 0 = tr.x
  simp [stride_padding]

/-! ### The arranger state: items, spatial indices, preload and warm start -/

/-- An item as the arranger-level code handles it: the source bounding box, the
current translation, the area reported by Item::area(), and the fixed flag. -/
structure ItemA where
  bbox0 : IntBox
  trans : IntPoint
  area : ℚ
  fixedFlag : Bool
  deriving DecidableEq

/-- Item::translate: add a vector to the current translation. -/
def ItemA.translate (itm : ItemA) (d : IntPoint) : ItemA :=
  { itm with trans := ⟨itm.trans.x + d.x, itm.trans.y + d.y⟩ }

/-- Item::boundingBox of the transformed item: the source box shifted by the
current translation. -/
def ItemA.bbox (itm : ItemA) : IntBox :=
  ⟨⟨itm.bbox0.minC.x + itm.trans.x, itm.bbox0.minC.y + itm.trans.y⟩,
   ⟨itm.bbox0.maxC.x + itm.trans.x, itm.bbox0.maxC.y + itm.trans.y⟩⟩

/-- Item::markAsFixed. -/
def ItemA.markAsFixed (itm : ItemA) : ItemA := { itm with fixedFlag := true }

/-- A spatial index, modelled as the list of (bounding box, payload index)
pairs it holds, in insertion order. -/
abbrev RTree := List (IntBox × Nat)

/-- The payload indices stored in an index. -/
def rtreeIdxs (t : RTree) : List Nat := t.map Prod.snd

/-- The big-item test a/bin_area > BIG_ITEM_TRESHOLD with BIG_ITEM_TRESHOLD
0.02 (Arrange.cpp 79, 156-158). -/
def isBigB (binArea a : ℚ) : Bool := a / binArea > 0.02

/-- AutoArranger::is_colliding (Arrange.cpp 368-375): empty index means no
collision, otherwise the item collides when the intersects query on its
bounding box returns anything. -/
def is_colliding (rtree : RTree) (itm : ItemA) : Bool :=
  if rtree.isEmpty then false
  else !(rtree.filter fun e => boxIntersects e.1 itm.bbox).isEmpty

/-- The two spatial indices of the AutoArranger: m_rtree for big items and
m_smallsrtree for all items. -/
structure IndexState where
  rtree : RTree
  smallsrtree : RTree
  deriving DecidableEq

/-- The before_packing callback (Arrange.cpp 310-334): clear both indices, then
for each committed item insert it into m_rtree when it is big and into
m_smallsrtree always, with its position in the committed list as payload. -/
def before_packing (binArea : ℚ) (items : List ItemA) : IndexState :=
  { rtree := items.enum.filterMap fun e =>
      if isBigB binArea e.2.area then some (e.2.bbox, e.1) else none
  , smallsrtree := items.enum.map fun e => (e.2.bbox, e.1) }

/-- AutoArranger::preload (Arrange.cpp 349-366): mark every fixed item as fixed
and insert each into m_rtree only, with its position among the fixed items as
payload; m_smallsrtree is not touched. Returns the updated index state and the
marked fixed-item list. -/
def preload (st : IndexState) (fixeditems : List ItemA) : IndexState × List ItemA :=
  let marked := fixeditems.map ItemA.markAsFixed
  ({ st with rtree := st.rtree ++ marked.enum.map fun e => (e.2.bbox, e.1) },
   marked)

/-- One warm-start translation (Arrange.cpp 539-542): shift the item by the
difference between the bin bounding-box center and its own bounding-box
center. -/
def centerItem (binbb : IntBox) (itm : ItemA) : ItemA :=
  itm.translate ⟨binbb.center.x - itm.bbox.center.x, binbb.center.y - itm.bbox.center.y⟩

/-- The warm-start loop of _arrange (Arrange.cpp 536-557): walk the movable
list in order, translating each item to the bin center; the first translated
item that does not collide with m_rtree is marked fixed, receives its apply
callback with bin index 0, and is erased from the list; items tried before it
stay in the list with the centering translation applied. Returns the new
movable list and the seated item, if any. -/
def warmStart (binbb : IntBox) (rtree : RTree) : List ItemA → List ItemA × Option ItemA
  | [] => ([], none)
  | itm :: rest =>
    let c := centerItem binbb itm
    if is_colliding rtree c then
      let r := warmStart binbb rtree rest
      (c :: r.1, r.2)
    else
      (rest, some c.markAsFixed)

/-- Apply-callback invocations performed by the warm start: the seated item
with bin index 0, nothing when no item was seated. -/
def warmStartEvents (binbb : IntBox) (rtree : RTree) (shapes : List ItemA) :
    List (ItemA × Nat) :=
  match (warmStart binbb rtree shapes).2 with
  | none => []
  | some itm => [(itm, 0)]

/-- The prologue of _arrange before the packer runs. -/
structure ArrangeSetup where
  shapesOut : List ItemA
  excludesOut : List ItemA
  indexSt : IndexState
  seated : Option ItemA
  inp : List ItemA

/-- The _arrange prologue (Arrange.cpp 515-564): erase every exclude whose
transformed shape is not inside the bin (the geometric inside test on the full
polygon, external to this file, enters as the predicate inside); when the
remaining exclude list is non-empty run preload and the warm start; finally the
packer input is the movable list followed by the fixed list. -/
def arrange_setup (inside : ItemA → Bool) (binbb : IntBox)
    (shapes excludes : List ItemA) : ArrangeSetup :=
  let ex := excludes.filter inside
  if ex.isEmpty then
    { shapesOut := shapes, excludesOut := ex, indexSt := ⟨[], []⟩,
      seated := none, inp := shapes ++ ex }
  else
    let pl := preload ⟨[], []⟩ ex
    let ws := warmStart binbb pl.1.rtree shapes
    { shapesOut := ws.1, excludesOut := pl.2, indexSt := pl.1,
      seated := ws.2, inp := ws.1 ++ pl.2 }

/-! ### C5: the index invariant -/

/-- C5 counterexample: preload of a single small fixed item (area 1 on a bin of
area 1000, a ratio of 1/1000 ≤ 0.02) from the arranger's initial empty index
state puts index 0 into big_rtree while all_rtree stays empty: big_rtree is not
a subset of all_rtree and big_rtree holds a part that is not big. -/
theorem c5_preload_breaks_invariant_cex :
    rtreeIdxs (preload ⟨[], []⟩ [⟨⟨⟨0, 0⟩, ⟨1, 1⟩⟩, ⟨0, 0⟩, 1, false⟩]).1.rtree = [0] ∧
    rtreeIdxs (preload ⟨[], []⟩ [⟨⟨⟨0, 0⟩, ⟨1, 1⟩⟩, ⟨0, 0⟩, 1, false⟩]).1.smallsrtree = [] ∧
    isBigB 1000 1 = false := by
  refine ⟨rfl, rfl, ?_⟩
  simp only [isBigB, decide_eq_false_iff_not]
  norm_num

/-- C5 amended: after every before_packing invocation the indices of big_rtree
are a subset of those of all_rtree, big_rtree holds exactly the placed items
with area/bin_area > 0.02 and all_rtree every placed item; preload however
inserts every fixed item into big_rtree only, regardless of its area, and into
all_rtree not at all. -/
theorem c5_index_invariant (binArea : ℚ) (items fixeditems : List ItemA) :
    (∀ i ∈ rtreeIdxs (before_packing binArea items).rtree,
        i ∈ rtreeIdxs (before_packing binArea items).smallsrtree) ∧
    (before_packing binArea items).rtree =
      (items.enum.filter fun e => isBigB binArea e.2.area).map
        (fun e => (e.2.bbox, e.1)) ∧
    rtreeIdxs (before_packing binArea items).smallsrtree = List.range items.length ∧
    (preload ⟨[], []⟩ fixeditems).1.rtree =
      (fixeditems.map ItemA.markAsFixed).enum.map (fun e => (e.2.bbox, e.1)) ∧
    (preload ⟨[], []⟩ fixeditems).1.smallsrtree = [] := by
  have h2 : (before_packing binArea items).rtree =
      (items.enum.filter fun e => isBigB binArea e.2.area).map
        (fun e => (e.2.bbox, e.1)) := by
    simp only [before_packing]
    induction items.enum with
    | nil => rfl
    | cons a l ih =>
      by_cases hb : isBigB binArea a.2.area <;>
        simp [List.filterMap_cons, List.filter_cons, hb, ih]
  have h3 : rtreeIdxs (before_packing binArea items).smallsrtree =
      List.range items.length := by
    simp only [before_packing, rtreeIdxs, List.map_map]
    have hc : (Prod.snd ∘ fun e : Nat × ItemA => (e.2.bbox, e.1)) = Prod.fst := rfl
    rw [hc]
    exact List.enum_map_fst items
  refine ⟨?_, h2, h3, rfl, rfl⟩
  intro i hi
  rw [h2] at hi
  rw [h3]
  simp only [rtreeIdxs, List.map_map, List.mem_map, Function.comp] at hi
  obtain ⟨e, he, rfl⟩ := hi
  have h4 : e.1 ∈ items.enum.map Prod.fst :=
    List.mem_map_of_mem Prod.fst (List.mem_filter.mp he).1
  rw [List.enum_map_fst] at h4
  exact h4

/-- C5 witness for the amended statement: one big item (area 30 on bin area
1000) and one small item, plus one fixed item for the preload part. -/
theorem c5_index_invariant_wit :
    (∀ i ∈ rtreeIdxs (before_packing 1000
        [⟨⟨⟨0, 0⟩, ⟨5, 5⟩⟩, ⟨0, 0⟩, 30, false⟩,
         ⟨⟨⟨0, 0⟩, ⟨1, 1⟩⟩, ⟨9, 9⟩, 1, false⟩]).rtree,
        i ∈ rtreeIdxs (before_packing 1000
        [⟨⟨⟨0, 0⟩, ⟨5, 5⟩⟩, ⟨0, 0⟩, 30, false⟩,
         ⟨⟨⟨0, 0⟩, ⟨1, 1⟩⟩, ⟨9, 9⟩, 1, false⟩]).smallsrtree) ∧
    (before_packing 1000
        [⟨⟨⟨0, 0⟩, ⟨5, 5⟩⟩, ⟨0, 0⟩, 30, false⟩,
         ⟨⟨⟨0, 0⟩, ⟨1, 1⟩⟩, ⟨9, 9⟩, 1, false⟩]).rtree =
      (([⟨⟨⟨0, 0⟩, ⟨5, 5⟩⟩, ⟨0, 0⟩, 30, false⟩,
         ⟨⟨⟨0, 0⟩, ⟨1, 1⟩⟩, ⟨9, 9⟩, 1, false⟩] : List ItemA).enum.filter
          fun e => isBigB 1000 e.2.area).map (fun e => (e.2.bbox, e.1)) ∧
    rtreeIdxs (before_packing 1000
        [⟨⟨⟨0, 0⟩, ⟨5, 5⟩⟩, ⟨0, 0⟩, 30, false⟩,
         ⟨⟨⟨0, 0⟩, ⟨1, 1⟩⟩, ⟨9, 9⟩, 1, false⟩]).smallsrtree =
      List.range ([⟨⟨⟨0, 0⟩, ⟨5, 5⟩⟩, ⟨0, 0⟩, 30, false⟩,
         ⟨⟨⟨0, 0⟩, ⟨1, 1⟩⟩, ⟨9, 9⟩, 1, false⟩] : List ItemA).length ∧
    (preload ⟨[], []⟩ [⟨⟨⟨2, 2⟩, ⟨3, 3⟩⟩, ⟨0, 0⟩, 4, false⟩]).1.rtree =
      (([⟨⟨⟨2, 2⟩, ⟨3, 3⟩⟩, ⟨0, 0⟩, 4, false⟩] : List ItemA).map
          ItemA.markAsFixed).enum.map (fun e => (e.2.bbox, e.1)) ∧
    (preload ⟨[], []⟩ [⟨⟨⟨2, 2⟩, ⟨3, 3⟩⟩, ⟨0, 0⟩, 4, false⟩]).1.smallsrtree = [] :=
  c5_index_invariant 1000
    [⟨⟨⟨0, 0⟩, ⟨5, 5⟩⟩, ⟨0, 0⟩, 30, false⟩, ⟨⟨⟨0, 0⟩, ⟨1, 1⟩⟩, ⟨9, 9⟩, 1, false⟩]
    [⟨⟨⟨2, 2⟩, ⟨3, 3⟩⟩, ⟨0, 0⟩, 4, false⟩]

/-! ### C6: the warm start -/

/-- C6 counterexample: bin box (−100,−100)–(100,100), one fixed entry with box
(10,10)–(20,20) in big_rtree, first movable part a 30×30 box already centered
(it collides when centered), second movable part a 4×4 box at (50,50) (centered
it does not collide). The warm start seats the second part, not the first: the
seated item is the centered second part, and the first stays in the movable
list. -/
theorem c6_second_item_seated_cex :
    (warmStart ⟨⟨-100, -100⟩, ⟨100, 100⟩⟩ [(⟨⟨10, 10⟩, ⟨20, 20⟩⟩, 0)]
        [⟨⟨⟨-15, -15⟩, ⟨15, 15⟩⟩, ⟨0, 0⟩, 9, false⟩,
         ⟨⟨⟨-2, -2⟩, ⟨2, 2⟩⟩, ⟨50, 50⟩, 1, false⟩]).2 =
      some ⟨⟨⟨-2, -2⟩, ⟨2, 2⟩⟩, ⟨0, 0⟩, 1, true⟩ ∧
    (warmStart ⟨⟨-100, -100⟩, ⟨100, 100⟩⟩ [(⟨⟨10, 10⟩, ⟨20, 20⟩⟩, 0)]
        [⟨⟨⟨-15, -15⟩, ⟨15, 15⟩⟩, ⟨0, 0⟩, 9, false⟩,
         ⟨⟨⟨-2, -2⟩, ⟨2, 2⟩⟩, ⟨50, 50⟩, 1, false⟩]).1 =
      [⟨⟨⟨-15, -15⟩, ⟨15, 15⟩⟩, ⟨0, 0⟩, 9, false⟩] ∧
    is_colliding [(⟨⟨10, 10⟩, ⟨20, 20⟩⟩, 0)]
      (centerItem ⟨⟨-100, -100⟩, ⟨100, 100⟩⟩
        ⟨⟨⟨-15, -15⟩, ⟨15, 15⟩⟩, ⟨0, 0⟩, 9, false⟩) = true := by
  refine ⟨rfl, rfl, rfl⟩

/-- C6 amended: the warm start walks the movable list in order and seats the
first part in list order whose centered bounding box does not collide with
big_rtree — not necessarily the first movable part; that part is marked fixed,
its apply callback is invoked with bin index 0, and it is removed from the
movable list, while the parts tried before it remain, translated to the bin
center; when every part collides, none is seated and every part ends up
translated to the bin center. -/
theorem c6_warm_start_first_fit (binbb : IntBox) (rtree : RTree)
    (shapes : List ItemA) :
    (warmStart binbb rtree shapes).2 =
      (shapes.find? fun itm => !is_colliding rtree (centerItem binbb itm)).map
        (fun itm => (centerItem binbb itm).markAsFixed) ∧
    warmStartEvents binbb rtree shapes =
      ((shapes.find? fun itm => !is_colliding rtree (centerItem binbb itm)).map
        (fun itm => ((centerItem binbb itm).markAsFixed, 0))).toList ∧
    (warmStart binbb rtree shapes).1 =
      (shapes.takeWhile fun itm => is_colliding rtree (centerItem binbb itm)).map
          (centerItem binbb) ++
        (shapes.dropWhile fun itm => is_colliding rtree (centerItem binbb itm)).tail := by
  have h1 : (warmStart binbb rtree shapes).2 =
      (shapes.find? fun itm => !is_colliding rtree (centerItem binbb itm)).map
        (fun itm => (centerItem binbb itm).markAsFixed) := by
    induction shapes with
    | nil => rfl
    | cons itm rest ih =>
      by_cases hc : is_colliding rtree (centerItem binbb itm)
      · rw [List.find?_cons_of_neg _ (by simp [hc])]
        simpa [warmStart, hc] using ih
      · rw [List.find?_cons_of_pos _ (by simp [hc])]
        simp [warmStart, hc]
  refine ⟨h1, ?_, ?_⟩
  · simp only [warmStartEvents]
    rw [h1]
    cases shapes.find? fun itm => !is_colliding rtree (centerItem binbb itm) <;> rfl
  · clear h1
    induction shapes with
    | nil => rfl
    | cons itm rest ih =>
      by_cases hc : is_colliding rtree (centerItem binbb itm)
      · simpa [warmStart, List.takeWhile_cons, List.dropWhile_cons, hc] using ih
      · simp [warmStart, List.takeWhile_cons, List.dropWhile_cons, hc]

/-! ### C10: filtering of out-of-bin excludes -/

/-- C10: the _arrange prologue erases every fixed item that is not inside the
bin before anything else happens: the surviving fixed list is exactly the
inside-filtered input (then marked fixed), the spatial index holds exactly the
survivors, all_rtree stays empty, the packer input is the movable output
followed by the survivors, and when the filter leaves nothing, preload and the
warm start are skipped entirely and the arrangement proceeds with the movable
parts alone. -/
theorem c10_excludes_filtered (inside : ItemA → Bool) (binbb : IntBox)
    (shapes excludes : List ItemA) :
    (arrange_setup inside binbb shapes excludes).excludesOut =
      (excludes.filter inside).map ItemA.markAsFixed ∧
    (arrange_setup inside binbb shapes excludes).indexSt.rtree =
      ((excludes.filter inside).map ItemA.markAsFixed).enum.map
        (fun e => (e.2.bbox, e.1)) ∧
    (arrange_setup inside binbb shapes excludes).indexSt.smallsrtree = [] ∧
    (arrange_setup inside binbb shapes excludes).inp =
      (arrange_setup inside binbb shapes excludes).shapesOut ++
        (arrange_setup inside binbb shapes excludes).excludesOut ∧
    arrange_setup inside binbb shapes (excludes.filter fun e => !inside e) =
      ⟨shapes, [], ⟨[], []⟩, none, shapes⟩ := by
  refine ⟨?_, ?_, ?_, ?_, ?_⟩
  · by_cases he : (excludes.filter inside).isEmpty
    · have hnil : excludes.filter inside = [] := List.isEmpty_iff.mp he
      simp [arrange_setup, he, hnil]
    · simp only [arrange_setup]
      rw [if_neg he]
      rfl
  · by_cases he : (excludes.filter inside).isEmpty
    · have hnil : excludes.filter inside = [] := List.isEmpty_iff.mp he
      simp [arrange_setup, he, hnil]
    · simp only [arrange_setup]
      rw [if_neg he]
      rfl
  · by_cases he : (excludes.filter inside).isEmpty
    · simp [arrange_setup, he]
    · simp only [arrange_setup]
      rw [if_neg he]
      rfl
  · by_cases he : (excludes.filter inside).isEmpty
    · simp [arrange_setup, he]
    · simp only [arrange_setup]
      rw [if_neg he]
  · have hff : (excludes.filter fun e => !inside e).filter inside = [] := by
      rw [List.filter_filter]
      apply List.filter_eq_nil_iff.mpr
      intro a ha
      by_cases h : inside a <;> simp [h]
    simp [arrange_setup, hff]

/-! ### C9: process_arrangeable and the apply callbacks -/

/-- Twice the signed shoelace area of a point sequence, summed over consecutive
pairs. On an explicitly closed contour this is twice the polygon area. -/
def shoelace2 : List IntPoint → Int
  | p :: q :: rest => (p.x * q.y - q.x * p.y) + shoelace2 (q :: rest)
  | _ => 0

/-- Closing a contour by repeating its first vertex, as Arrange.cpp 605-606 and
the poly_area helper of bedShape both do. -/
def closePoly : List IntPoint → List IntPoint
  | [] => []
  | p :: rest => (p :: rest) ++ [p]

/-- Polygon::is_counter_clockwise. Modelled from the spec: the contour is
counter-clockwise when its signed area is nonnegative; the classifier lives
outside Arrange.cpp and only its Bool result matters here. -/
def is_counter_clockwise (pts : List IntPoint) : Bool :=
  0 ≤ shoelace2 (closePoly pts)

/-- An item as built by process_arrangeable: the closed clockwise contour, the
initial translation and rotation, and the registered apply function, none for
fixed handles. The apply function receives the item's translation and rotation
at call time together with the bin index and yields the pose handed to
apply_arrange_result. -/
structure ProcItem where
  contour : List IntPoint
  trans : IntPoint
  rot : ℚ
  applyFn : Option (IntPoint → ℚ → Nat → ApplyEvent)

/-- What a handle supplies through get_arrange_polygon: the raw polygon, the
initial offset and the initial rotation. -/
structure ArrHandle where
  poly : List IntPoint
  offs : IntPoint
  rot : ℚ

/-- process_arrangeable (Arrange.cpp 588-611): reverse a counter-clockwise
contour, close it by repeating its first vertex, then build the item carrying
the handle's offset and rotation and the supplied apply function. -/
def process_arrangeable (h : ArrHandle)
    (applyfn : Option (IntPoint → ℚ → Nat → ApplyEvent)) : ProcItem :=
  let p := if is_counter_clockwise h.poly then h.poly.reverse else h.poly
  { contour := closePoly p, trans := h.offs, rot := h.rot, applyFn := applyfn }

/-- Item::callApplyFunction: invoke the registered apply function with the
item's current pose and the bin index. Modelled from the spec: a fixed handle
has no registered function and invoking its callback slot performs no
apply_arrange_result call. -/
def callApplyFunction (itm : ProcItem) (binidx : Nat) : List ApplyEvent :=
  match itm.applyFn with
  | none => []
  | some f => [f itm.trans itm.rot binidx]

/-- C9: the facade processes every fixed (exclude) handle with a null apply
function (Arrange.cpp 628-629), so invoking the callback slot of a processed
fixed handle performs no apply_arrange_result call at any bin index, while a
movable handle is processed with the stride-adding apply function registered
(Arrange.cpp 613-626). -/
theorem c9_fixed_handles_no_callback (h : ArrHandle) (binwidth : Int) (binidx : Nat) :
    (process_arrangeable h none).applyFn = none ∧
    callApplyFunction (process_arrangeable h none) binidx = [] ∧
    (process_arrangeable h (some (movable_apply binwidth))).applyFn =
      some (movable_apply binwidth) :=
  ⟨rfl, rfl, rfl⟩

/-! ### C8: bedShape classification -/

/-- poly_area of bedShape (Arrange.cpp 457-462): close the polyline into a
polygon and take the absolute polygon area, in double arithmetic. -/
def poly_area (pts : List IntPoint) : ℚ :=
  |((shoelace2 (closePoly pts) : Int) : ℚ)| / 2

/-- Polyline::bounding_box: the smallest box containing every point. External
to Arrange.cpp; modelled directly (the code never calls it on an empty bed). -/
def polyBB : List IntPoint → IntBox
  | [] => ⟨⟨0, 0⟩, ⟨0, 0⟩⟩
  | p :: rest => rest.foldl (fun b q =>
      ⟨⟨min b.minC.x q.x, min b.minC.y q.y⟩,
       ⟨max b.maxC.x q.x, max b.maxC.y q.y⟩⟩) ⟨p, p⟩

/-- The vertex distances from the bed bounding-box center, as collected by the
isCircle helper of bedShape. -/
def bedDistances (sqrtA : ℚ → ℚ) (bed : List IntPoint) : List ℚ :=
  bed.map (distance_to sqrtA (polyBB bed).center)

/-- The average of a distance list, avg_dist of the isCircle helper. -/
def avgDist (ds : List ℚ) : ℚ := ds.sum / (ds.length : ℚ)

/-- The classification bedShape returns. -/
inductive BedClass where
  | boxC (bb : IntBox)
  | circleC (center : IntPoint) (radius : ℚ)
  | irregularC (outline : List IntPoint)
  deriving DecidableEq

/-- bedShape (Arrange.cpp 437-513): Box when 1 − area(bed)/area(bbox) < 1e-3;
otherwise Circle when every vertex distance from the bbox center deviates from
the average distance by at most 10·SCALED_EPSILON (eps; the CircleBed
truthiness check is modelled from the spec as the success of this test);
otherwise Irregular with the raw outline. sqrtA abstracts the floating square
root inside distance_to. -/
def bedShape (sqrtA : ℚ → ℚ) (eps : ℚ) (bed : List IntPoint) : BedClass :=
  if 1 - poly_area bed / (polyBB bed).areaQ < 1e-3 then .boxC (polyBB bed)
  else if (bedDistances sqrtA bed).all
      (fun d => |d - avgDist (bedDistances sqrtA bed)| ≤ 10 * eps) then
    .circleC (polyBB bed).center (avgDist (bedDistances sqrtA bed))
  else .irregularC bed

/-- The claim's classification, following its words: Box iff the polyline's
unsigned area equals the bbox area within 1e-3 relative tolerance; otherwise
Circle iff every vertex lies within 10·SCALED_EPSILON of the common radius
from the bbox center, the common radius being the average vertex distance the
helper determines; otherwise Irregular. -/
def bedShape_claim (sqrtA : ℚ → ℚ) (eps : ℚ) (bed : List IntPoint) : BedClass :=
  if |poly_area bed - (polyBB bed).areaQ| < 1e-3 * (polyBB bed).areaQ then
    .boxC (polyBB bed)
  else if ∀ d ∈ bedDistances sqrtA bed,
      |d - avgDist (bedDistances sqrtA bed)| ≤ 10 * eps then
    .circleC (polyBB bed).center (avgDist (bedDistances sqrtA bed))
  else .irregularC bed

/-- C8: on every bed outline polyline — a polygon lies inside its bounding box,
so its area is at most the bbox area, and a genuine bed has a nondegenerate
bbox — bedShape classifies exactly as the claim states: Box iff the areas agree
within 1e-3 relative tolerance, else Circle iff every vertex is within
10·SCALED_EPSILON of the common radius, else Irregular. -/
theorem c8_bedshape_classification (sqrtA : ℚ → ℚ) (eps : ℚ)
    (bed : List IntPoint) (hb : 0 < (polyBB bed).areaQ)
    (hp : poly_area bed ≤ (polyBB bed).areaQ) :
    bedShape sqrtA eps bed = bedShape_claim sqrtA eps bed := by
  have hbox : (1 - poly_area bed / (polyBB bed).areaQ < 1e-3) ↔
      |poly_area bed - (polyBB bed).areaQ| < 1e-3 * (polyBB bed).areaQ := by
    rw [abs_sub_comm, abs_of_nonneg (sub_nonneg.mpr hp)]
    have h0 : 1 - poly_area bed / (polyBB bed).areaQ
        = ((polyBB bed).areaQ - poly_area bed) / (polyBB bed).areaQ := by
      field_simp
    rw [h0, div_lt_iff₀ hb, mul_comm]
  have hcirc : ((bedDistances sqrtA bed).all
        (fun d => |d - avgDist (bedDistances sqrtA bed)| ≤ 10 * eps) = true) ↔
      (∀ d ∈ bedDistances sqrtA bed,
        |d - avgDist (bedDistances sqrtA bed)| ≤ 10 * eps) := by
    simp [List.all_eq_true]
  unfold bedShape bedShape_claim
  by_cases h1 : |poly_area bed - (polyBB bed).areaQ| < 1e-3 * (polyBB bed).areaQ
  · rw [if_pos (hbox.mpr h1), if_pos h1]
  · rw [if_neg fun hh => h1 (hbox.mp hh), if_neg h1]
    by_cases h2 : ∀ d ∈ bedDistances sqrtA bed,
        |d - avgDist (bedDistances sqrtA bed)| ≤ 10 * eps
    · rw [if_pos (hcirc.mpr h2), if_pos h2]
    · rw [if_neg fun hh => h2 (hcirc.mp hh), if_neg h2]

/-- C8 witness: the 4×4 square outline with unit distances, identity in place
of the square root and eps = 100. -/
theorem c8_bedshape_classification_wit :
    (0 < (polyBB [⟨0, 0⟩, ⟨4, 0⟩, ⟨4, 4⟩, ⟨0, 4⟩]).areaQ ∧
     poly_area [⟨0, 0⟩, ⟨4, 0⟩, ⟨4, 4⟩, ⟨0, 4⟩] ≤
       (polyBB [⟨0, 0⟩, ⟨4, 0⟩, ⟨4, 4⟩, ⟨0, 4⟩]).areaQ) ∧
    bedShape (fun q => q) 100 [⟨0, 0⟩, ⟨4, 0⟩, ⟨4, 4⟩, ⟨0, 4⟩] =
      bedShape_claim (fun q => q) 100 [⟨0, 0⟩, ⟨4, 0⟩, ⟨4, 4⟩, ⟨0, 4⟩] := by
  have hb : 0 < (polyBB [⟨0, 0⟩, ⟨4, 0⟩, ⟨4, 4⟩, ⟨0, 4⟩]).areaQ := by
    norm_num [polyBB, IntBox.areaQ, IntBox.width, IntBox.height]
  have hp : poly_area [⟨0, 0⟩, ⟨4, 0⟩, ⟨4, 4⟩, ⟨0, 4⟩] ≤
      (polyBB [⟨0, 0⟩, ⟨4, 0⟩, ⟨4, 4⟩, ⟨0, 4⟩]).areaQ := by
    norm_num [polyBB, poly_area, closePoly, shoelace2, IntBox.areaQ,
      IntBox.width, IntBox.height]
  exact ⟨⟨hb, hp⟩, c8_bedshape_classification (fun q => q) 100 _ hb hp⟩

/-! ### C7: the objective function -/

/-- An item as objfunc reads it: Item::area(), the transformed bounding box and
the transformed shape; the shape is consumed only by the last-big-item branch
through the external convex hull. -/
structure ItemO where
  area : ℚ
  bbox : IntBox
  shape : List IntPoint

/-- The fallback for an out-of-range m_items access, undefined behavior in the
C++; fixed here to a degenerate item of unit area. -/
def dItemO : ItemO := ⟨1, ⟨⟨0, 0⟩, ⟨0, 0⟩⟩, []⟩

/-- SpatIndex::bounds, the minimum bounding rectangle of every entry of a
non-empty index; the empty case is handled by the caller. -/
def rtreeBounds (t : RTree) (dflt : IntBox) : IntBox :=
  match t with
  | [] => dflt
  | e :: r => r.foldl (fun acc f => boxUnion acc f.1) e.1

/-- The minimum of a list of alignment scores, 1.0 when there is none. -/
def alignmentMin (s : List ℚ) : ℚ :=
  match s with
  | [] => 1
  | a :: r => r.foldl min a

/-- The AutoArranger fields objfunc reads at call time. -/
structure ObjState where
  binArea : ℚ
  pilebb : IntBox
  rtree : RTree
  smallsrtree : RTree
  items : List ItemO
  remaining : List ItemO
  mergedPile : List (List IntPoint)

/-- objfunc (Arrange.cpp 147-292), translated step for step: classify the
candidate as BIG_ITEM, LAST_BIG_ITEM or SMALL_ITEM and score it. hullCirc
abstracts the external EdgeCache circumference of sl::convexHull, used only by
the LAST_BIG_ITEM branch, and sqrtA the floating square root. The first
component is the score, the second the bounding box of pile plus candidate. -/
def objfunc (sqrtA : ℚ → ℚ) (hullCirc : List (List IntPoint) → ℚ)
    (st : ObjState) (item : ItemO) (bincenter : IntPoint) : ℚ × IntBox :=
  let ibb := item.bbox
  let fullbb := boxUnion st.pilebb ibb
  let bigbb := if st.rtree.isEmpty then fullbb else rtreeBounds st.rtree fullbb
  let norm : ℚ → ℚ := fun v => v / sqrtA st.binArea
  let bigitems : Bool := isBigB st.binArea item.area || st.rtree.isEmpty
  if bigitems && !st.remaining.isEmpty then
    let minc := ibb.minC
    let maxc := ibb.maxC
    let topLeft : IntPoint := ⟨minc.x, maxc.y⟩
    let bottomRight : IntPoint := ⟨maxc.x, minc.y⟩
    let cc := fullbb.center
    let dists : List ℚ :=
      [distance_to sqrtA minc cc, distance_to sqrtA maxc cc,
       distance_to sqrtA ibb.center cc, distance_to sqrtA topLeft cc,
       distance_to sqrtA bottomRight cc]
    let dist0 := norm (minList dists)
    let bindist := norm (distance_to sqrtA ibb.center bincenter)
    let dist := 0.8 * dist0 + 0.2 * bindist
    let index := if isBigB st.binArea item.area then st.rtree else st.smallsrtree
    let result := index.filter fun e => boxIntersects e.1 ibb
    let alignmentScore := result.foldl
      (fun acc e =>
        if |1 - (st.items.getD e.2 dItemO).area / item.area| < 1e-6 then
          if 1 - (item.area + (st.items.getD e.2 dItemO).area) /
              (boxUnion (st.items.getD e.2 dItemO).bbox ibb).areaQ < acc then
            1 - (item.area + (st.items.getD e.2 dItemO).area) /
              (boxUnion (st.items.getD e.2 dItemO).bbox ibb).areaQ
          else acc
        else acc) 1
    let density := sqrtA (norm (fullbb.width : ℚ) * norm (fullbb.height : ℚ))
    (if result.isEmpty then 0.5 * dist + 0.5 * density
     else 0.40 * dist + 0.40 * density + 0.2 * alignmentScore, fullbb)
  else if bigitems && st.remaining.isEmpty then
    let circ := norm (hullCirc (st.mergedPile ++ [item.shape]))
    let bcirc := 2 * norm ((fullbb.width : ℚ) + (fullbb.height : ℚ))
    (0.5 * circ + 0.5 * bcirc, fullbb)
  else
    (norm (distance_to sqrtA ibb.center bigbb.center), fullbb)

/-- The claim's BIG_ITEM score, written from its words: dist blends 0.8 of the
normed minimal distance from the pile-plus-item box center to the five anchor
points of the item box with 0.2 of the normed bin-center distance; density is
the square root of the product of the normed full-box width and height; the
neighbors are the intersects query on the relevant index; alignment is the
minimum over neighbors of equal area, 1.0 when there is none; the score is
0.5·dist + 0.5·density without neighbors, and 0.40·dist + 0.40·density +
0.2·alignment with them. -/
def bigItemScore (sqrtA : ℚ → ℚ) (st : ObjState) (item : ItemO)
    (bincenter : IntPoint) : ℚ :=
  let ibb := item.bbox
  let fullbb := boxUnion st.pilebb ibb
  let norm : ℚ → ℚ := fun v => v / sqrtA st.binArea
  let cc := fullbb.center
  let anchors : List IntPoint :=
    [ibb.minC, ibb.maxC, ibb.center, ⟨ibb.minC.x, ibb.maxC.y⟩,
     ⟨ibb.maxC.x, ibb.minC.y⟩]
  let dist := 0.8 * norm (minList (anchors.map fun a => distance_to sqrtA a cc)) +
    0.2 * norm (distance_to sqrtA ibb.center bincenter)
  let density := sqrtA (norm (fullbb.width : ℚ) * norm (fullbb.height : ℚ))
  let index := if isBigB st.binArea item.area then st.rtree else st.smallsrtree
  let neighbors := index.filter fun e => boxIntersects e.1 ibb
  let equalArea := neighbors.filter fun e =>
    |1 - (st.items.getD e.2 dItemO).area / item.area| < 1e-6
  let ascores := equalArea.map fun e =>
    1 - (item.area + (st.items.getD e.2 dItemO).area) /
      (boxUnion (st.items.getD e.2 dItemO).bbox ibb).areaQ
  if neighbors.isEmpty then 0.5 * dist + 0.5 * density
  else 0.40 * dist + 0.40 * density + 0.2 * alignmentMin ascores

/-- The in-loop minimum of the alignment sweep equals a fold of min over the
filtered and mapped candidate scores. -/
theorem foldl_min_filter {α : Type} (l : List α) (pred : α → Prop)
    [DecidablePred pred] (f : α → ℚ) (q : ℚ) :
    l.foldl (fun acc a => if pred a then (if f a < acc then f a else acc) else acc) q
      = ((l.filter fun a => pred a).map f).foldl min q := by
  induction l generalizing q with
  | nil => rfl
  | cons a r ih =>
    simp only [List.foldl_cons, List.filter_cons]
    by_cases hp : pred a
    · have hd : decide (pred a) = true := by simp [hp]
      rw [if_pos hp, if_pos hd, List.map_cons, List.foldl_cons]
      have hstep : (if f a < q then f a else q) = min q (f a) := by
        rcases lt_or_le (f a) q with h | h
        · rw [if_pos h, min_eq_right h.le]
        · rw [if_neg (not_lt.mpr h), min_eq_left h]
      rw [hstep, ih]
    · have hd : ¬ decide (pred a) = true := by simp [hp]
      rw [if_neg hp, if_neg hd]
      exact ih q

/-- Folding min from 1 over scores that never exceed 1 gives their minimum,
with 1 as the empty default. -/
theorem foldl_min_one (s : List ℚ) (hs : ∀ x ∈ s, x ≤ 1) :
    s.foldl min 1 = alignmentMin s := by
  cases s with
  | nil => rfl
  | cons a r =>
    simp only [alignmentMin, List.foldl_cons]
    rw [min_eq_right (hs a (by simp))]

/-- C7: whenever objfunc classifies the candidate as BIG_ITEM — its area over
the bin area exceeds 0.02 or the big-item index is empty, and remaining parts
exist — and areas are positive with well-formed bounding boxes, the score it
returns is exactly the claim's formula: 0.5·dist + 0.5·density when the
intersects query returns nothing, 0.40·dist + 0.40·density + 0.2·alignment
otherwise, with dist, density and alignment as the claim states them. -/
theorem c7_big_item_objective (sqrtA : ℚ → ℚ)
    (hullCirc : List (List IntPoint) → ℚ) (st : ObjState) (item : ItemO)
    (bincenter : IntPoint)
    (hcase : (isBigB st.binArea item.area || st.rtree.isEmpty) = true)
    (hrem : st.remaining.isEmpty = false)
    (hitem : 0 < item.area)
    (hareas : ∀ p ∈ st.items, 0 < p.area)
    (hboxes : ∀ p ∈ st.items,
      p.bbox.minC.x ≤ p.bbox.maxC.x ∧ p.bbox.minC.y ≤ p.bbox.maxC.y) :
    (objfunc sqrtA hullCirc st item bincenter).1 =
      bigItemScore sqrtA st item bincenter := by
  have hgetD : ∀ n : Nat, 0 < (st.items.getD n dItemO).area ∧
      (st.items.getD n dItemO).bbox.minC.x ≤ (st.items.getD n dItemO).bbox.maxC.x ∧
      (st.items.getD n dItemO).bbox.minC.y ≤ (st.items.getD n dItemO).bbox.maxC.y := by
    intro n
    rcases lt_or_le n st.items.length with hlt | hge
    · rw [List.getD_eq_getElem?_getD, List.getElem?_eq_getElem hlt]
      have hmem := List.getElem_mem hlt
      exact ⟨hareas _ hmem, hboxes _ hmem⟩
    · rw [List.getD_eq_getElem?_getD, List.getElem?_eq_none hge]
      refine ⟨by norm_num [dItemO], by norm_num [dItemO], by norm_num [dItemO]⟩
  have hbound : ∀ e : IntBox × Nat,
      1 - (item.area + (st.items.getD e.2 dItemO).area) /
        (boxUnion (st.items.getD e.2 dItemO).bbox item.bbox).areaQ ≤ 1 := by
    intro e
    obtain ⟨hpa, hwx, hwy⟩ := hgetD e.2
    have hua : 0 ≤ (boxUnion (st.items.getD e.2 dItemO).bbox item.bbox).areaQ := by
      have hx : min (st.items.getD e.2 dItemO).bbox.minC.x item.bbox.minC.x ≤
          max (st.items.getD e.2 dItemO).bbox.maxC.x item.bbox.maxC.x :=
        le_trans (min_le_left _ _) (le_trans hwx (le_max_left _ _))
      have hy : min (st.items.getD e.2 dItemO).bbox.minC.y item.bbox.minC.y ≤
          max (st.items.getD e.2 dItemO).bbox.maxC.y item.bbox.maxC.y :=
        le_trans (min_le_left _ _) (le_trans hwy (le_max_left _ _))
      unfold boxUnion IntBox.areaQ IntBox.width IntBox.height
      have hx2 : (0 : ℚ) ≤
          ((max (st.items.getD e.2 dItemO).bbox.maxC.x item.bbox.maxC.x -
            min (st.items.getD e.2 dItemO).bbox.minC.x item.bbox.minC.x : Int) : ℚ) := by
        exact_mod_cast Int.sub_nonneg.mpr hx
      have hy2 : (0 : ℚ) ≤
          ((max (st.items.getD e.2 dItemO).bbox.maxC.y item.bbox.maxC.y -
            min (st.items.getD e.2 dItemO).bbox.minC.y item.bbox.minC.y : Int) : ℚ) := by
        exact_mod_cast Int.sub_nonneg.mpr hy
      exact mul_nonneg hx2 hy2
    have hq : 0 ≤ (item.area + (st.items.getD e.2 dItemO).area) /
        (boxUnion (st.items.getD e.2 dItemO).bbox item.bbox).areaQ :=
      div_nonneg (by linarith) hua
    linarith
  simp only [objfunc, bigItemScore, hcase, hrem, Bool.not_false, Bool.and_self,
    Bool.true_and, if_true]
  rw [foldl_min_filter
    ((if isBigB st.binArea item.area then st.rtree else st.smallsrtree).filter
      fun e => boxIntersects e.1 item.bbox)
    (fun e => |1 - (st.items.getD e.2 dItemO).area / item.area| < 1e-6)
    (fun e => 1 - (item.area + (st.items.getD e.2 dItemO).area) /
      (boxUnion (st.items.getD e.2 dItemO).bbox item.bbox).areaQ) 1]
  rw [foldl_min_one _ (by
    intro x hx
    simp only [List.mem_map] at hx
    obtain ⟨e, he, rfl⟩ := hx
    exact hbound e)]
  rfl

/-- A concrete scene for the objective-function witness: bin area 100, one
committed big item of area 3 filling both indices, one remaining item. -/
def wScene : ObjState :=
  { binArea := 100
  , pilebb := ⟨⟨0, 0⟩, ⟨10, 10⟩⟩
  , rtree := [(⟨⟨0, 0⟩, ⟨10, 10⟩⟩, 0)]
  , smallsrtree := [(⟨⟨0, 0⟩, ⟨10, 10⟩⟩, 0)]
  , items := [⟨3, ⟨⟨0, 0⟩, ⟨10, 10⟩⟩, []⟩]
  , remaining := [⟨3, ⟨⟨0, 0⟩, ⟨0, 0⟩⟩, []⟩]
  , mergedPile := [] }

/-- The candidate item of the objective-function witness. -/
def wItem : ItemO := ⟨3, ⟨⟨0, 0⟩, ⟨10, 10⟩⟩, []⟩

/-- C7 witness: the concrete scene satisfies the BIG_ITEM hypotheses and the
score equals the claim's formula there. -/
theorem c7_big_item_objective_wit :
    ((isBigB wScene.binArea wItem.area || wScene.rtree.isEmpty) = true ∧
     wScene.remaining.isEmpty = false ∧
     0 < wItem.area ∧
     (∀ p ∈ wScene.items, 0 < p.area) ∧
     (∀ p ∈ wScene.items,
       p.bbox.minC.x ≤ p.bbox.maxC.x ∧ p.bbox.minC.y ≤ p.bbox.maxC.y)) ∧
    (objfunc (fun q => q) (fun l => 0) wScene wItem ⟨5, 5⟩).1 =
      bigItemScore (fun q => q) wScene wItem ⟨5, 5⟩ := by
  have hcase : (isBigB wScene.binArea wItem.area || wScene.rtree.isEmpty) = true := by
    simp only [wScene, wItem, isBigB, List.isEmpty, Bool.or_eq_true,
      decide_eq_true_eq]
    left
    norm_num
  have hrem : wScene.remaining.isEmpty = false := rfl
  have hitem : 0 < wItem.area := by norm_num [wItem]
  have hareas : ∀ p ∈ wScene.items, 0 < p.area := by
    intro p hp
    simp only [wScene, List.mem_singleton] at hp
    rw [hp]
    norm_num
  have hboxes : ∀ p ∈ wScene.items,
      p.bbox.minC.x ≤ p.bbox.maxC.x ∧ p.bbox.minC.y ≤ p.bbox.maxC.y := by
    intro p hp
    simp only [wScene, List.mem_singleton] at hp
    rw [hp]
    exact ⟨by decide, by decide⟩
  exact ⟨⟨hcase, hrem, hitem, hareas, hboxes⟩,
    c7_big_item_objective (fun q => q) (fun l => 0) wScene wItem ⟨5, 5⟩
      hcase hrem hitem hareas hboxes⟩

end Arrangement
